import Mathlib

/-!
Shallow embedding of the workout CRUD service: the Postgres-backed workout
store (`CreateWorkout`, `GetWorkoutByID`, `UpdateWorkout`, plus the
`GetWorkoutOwner` and `DeleteWorkout` collaborators used by the handlers)
and the HTTP handlers (`HandleCreateWorkout`, `HandleUpdateWorkoutByID`,
`HandleDeleteWorkoutByID`).  The database is modelled as explicit state
(`DB`): the two tables `workouts` and `workout_entries` as lists of rows in
insertion order, plus the id sequences.  SQL statement failures are
injected through explicit fault parameters, and a transaction is modelled
by building a new state that is installed only when the commit succeeds;
every early return leaves the original state (rollback).
-/

/-- Errors of the `database/sql` layer: `noRows` is `sql.ErrNoRows`,
`connDone` is `sql.ErrConnDone`, `other n` stands for any further driver
error (constraint violation, connection failure, ...). -/
inductive SqlError where
  | noRows
  | connDone
  | other (n : Nat)
  deriving DecidableEq, Repr

/-- `store.WorkoutEntry`.  `Reps`, `DurationSeconds` and `Weight` are
pointer fields in Go (nullable), hence `Option` here; the `float64` weight
is modelled as a rational since the program only stores and retrieves it. -/
structure WorkoutEntry where
  id : Int
  exerciseName : String
  sets : Int
  reps : Option Int
  durationSeconds : Option Int
  weight : Option Rat
  notes : String
  orderIndex : Int
  deriving DecidableEq, Repr

/-- `store.Workout`.  The `userID` field is the one assigned by
`HandleCreateWorkout` (`workout.UserID = currentUser.ID`); the store never
reads it when inserting. -/
structure Workout where
  id : Int
  title : String
  description : String
  durationMinutes : Int
  caloriesBurned : Int
  userID : Int
  entries : List WorkoutEntry
  deriving DecidableEq, Repr

/-- A row of the `workouts` table.  The schema has a `user_id` column, but
the INSERT issued by `CreateWorkout` does not mention it, so the column is
nullable in the model and stays `none` for rows created by the store. -/
structure WorkoutRow where
  id : Int
  title : String
  description : String
  durationMinutes : Int
  caloriesBurned : Int
  userId : Option Int
  deriving DecidableEq, Repr

/-- A row of the `workout_entries` table. -/
structure EntryRow where
  id : Int
  workoutId : Int
  exerciseName : String
  sets : Int
  reps : Option Int
  durationSeconds : Option Int
  weight : Option Rat
  notes : String
  orderIndex : Int
  deriving DecidableEq, Repr

/-- Database state: both tables in physical (insertion) order together
with the two id sequences. -/
structure DB where
  workouts : List WorkoutRow
  entries : List EntryRow
  nextWorkoutId : Int
  nextEntryId : Int
  deriving DecidableEq, Repr

/-- `SELECT ... FROM workouts WHERE id = $1`. -/
def findWorkoutRow (db : DB) (wid : Int) : Option WorkoutRow :=
  db.workouts.find? (fun r => r.id == wid)

/-- The rows of `workout_entries` belonging to workout `wid`, in physical
order. -/
def entriesFor (db : DB) (wid : Int) : List EntryRow :=
  db.entries.filter (fun r => r.workoutId == wid)

/-- Well-formedness of the database state: every stored id is below the
corresponding sequence value (what the serial id sequences guarantee). -/
def DBWF (db : DB) : Prop :=
  (∀ r ∈ db.workouts, r.id < db.nextWorkoutId) ∧
  (∀ r ∈ db.entries, r.id < db.nextEntryId) ∧
  (∀ r ∈ db.entries, r.workoutId < db.nextWorkoutId)

/-- The row produced by one
`INSERT INTO workout_entries (workout_id, exercise_name, sets, reps,
duration_seconds, weight, notes, order_index)` with generated id `n`. -/
def entryToRow (n wid : Int) (e : WorkoutEntry) : EntryRow :=
  { id := n, workoutId := wid, exerciseName := e.exerciseName,
    sets := e.sets, reps := e.reps, durationSeconds := e.durationSeconds,
    weight := e.weight, notes := e.notes, orderIndex := e.orderIndex }

/-- The rows the entry-insert loop produces for parent `wid` when the id
sequence starts at `n`: one row per entry, in the given order, with
consecutive fresh ids. -/
def assignIds (wid : Int) : Int → List WorkoutEntry → List EntryRow
  | _, [] => []
  | n, e :: rest => entryToRow n wid e :: assignIds wid (n + 1) rest

/-- The entry-insert loop shared by `CreateWorkout` and `UpdateWorkout`:
one insert per entry, in the given order, against the transaction state
`tx`; `fault i` is the error of the insert at position `i`, if any.  In the
Go loop `for _, entry := range workout.Entries` the generated id is scanned
into the loop-local copy `entry`, so the caller's entry list is never
updated; accordingly the loop only changes `tx`. -/
def insertEntries (fault : Nat → Option SqlError) (wid : Int) :
    List WorkoutEntry → Nat → DB → Except SqlError DB
  | [], _, tx => .ok tx
  | e :: rest, i, tx =>
    match fault i with
    | some err => .error err
    | none =>
        insertEntries fault wid rest (i + 1)
          { tx with
            entries := tx.entries ++ [entryToRow tx.nextEntryId wid e],
            nextEntryId := tx.nextEntryId + 1 }

/-- Failure injection for `CreateWorkout`: one slot per SQL interaction. -/
structure CreateFaults where
  beginFault : Option SqlError
  headerFault : Option SqlError
  entryFault : Nat → Option SqlError
  commitFault : Option SqlError

/-- All statements succeed. -/
def noCreateFaults : CreateFaults :=
  { beginFault := none, headerFault := none,
    entryFault := fun _ => none, commitFault := none }

/-- `PostgresWorkoutStore.CreateWorkout`: begin a transaction, insert the
header (`RETURNING id` scanned into `workout.ID`; the INSERT lists only
title, description, duration_minutes and calories_burned, so `user_id`
stays unset), insert each entry in order, commit.  Any error returns the
unchanged database (the deferred rollback); a commit error is replaced by
`sql.ErrConnDone`.  On success the returned workout has the generated id,
but its entries are returned exactly as passed in, because each entry id
was scanned into a loop-local copy. -/
def CreateWorkout (f : CreateFaults) (db : DB) (w : Workout) :
    DB × Except SqlError Workout :=
  match f.beginFault with
  | some e => (db, .error e)
  | none =>
    match f.headerFault with
    | some e => (db, .error e)
    | none =>
      let wid := db.nextWorkoutId
      let row : WorkoutRow :=
        { id := wid, title := w.title, description := w.description,
          durationMinutes := w.durationMinutes,
          caloriesBurned := w.caloriesBurned, userId := none }
      let tx1 : DB :=
        { db with workouts := db.workouts ++ [row], nextWorkoutId := wid + 1 }
      match insertEntries f.entryFault wid w.entries 0 tx1 with
      | .error e => (db, .error e)
      | .ok tx2 =>
        match f.commitFault with
        | some _ => (db, .error .connDone)
        | none => (tx2, .ok { w with id := wid })

/-- Ordering of entry rows used by `ORDER BY order_index`. -/
def entryRowLe (a b : EntryRow) : Prop :=
  a.orderIndex ≤ b.orderIndex

instance : DecidableRel entryRowLe := fun a b =>
  inferInstanceAs (Decidable (a.orderIndex ≤ b.orderIndex))

instance : IsTotal EntryRow entryRowLe :=
  ⟨fun a b => Int.le_total a.orderIndex b.orderIndex⟩

instance : IsTrans EntryRow entryRowLe :=
  ⟨fun _ _ _ hab hbc => le_trans hab hbc⟩

/-- Scanning an entry row back into a `WorkoutEntry`. -/
def rowToEntry (r : EntryRow) : WorkoutEntry :=
  { id := r.id, exerciseName := r.exerciseName, sets := r.sets,
    reps := r.reps, durationSeconds := r.durationSeconds,
    weight := r.weight, notes := r.notes, orderIndex := r.orderIndex }

/-- Failure injection for `GetWorkoutByID`: a driver error of the header
`QueryRow ... Scan`, an error of the entries `Query`, and a driver error
during the `rows.Next()` iteration.  The iteration error makes
`rows.Next()` return false after `k` rows; the error value itself is
unobservable to the function because `rows.Err()` is never checked, so
the fault records only the number `k` of rows delivered before it. -/
structure QueryFaults where
  headerFault : Option SqlError
  entriesFault : Option SqlError
  iterFault : Option Nat
  deriving Repr

/-- All statements succeed. -/
def noQueryFaults : QueryFaults :=
  { headerFault := none, entriesFault := none, iterFault := none }

/-- `PostgresWorkoutStore.GetWorkoutByID`: scan the header row (the SELECT
lists id, title, description, duration_minutes and calories_burned, so the
`UserID` field keeps its zero value); `sql.ErrNoRows` yields `(nil, nil)`,
modelled as `.ok none`; any other error is propagated.  Then fetch the
entry rows for that workout `ORDER BY order_index` (a stable sort of the
physical order) and iterate them with `rows.Next()`, attaching each.  A
driver error during iteration stops the loop early, and since the code
never checks `rows.Err()`, the function then returns the truncated entry
list with a nil error. -/
def GetWorkoutByID (f : QueryFaults) (db : DB) (wid : Int) :
    Except SqlError (Option Workout) :=
  match f.headerFault with
  | some .noRows => .ok none
  | some e => .error e
  | none =>
    match findWorkoutRow db wid with
    | none => .ok none
    | some r =>
      match f.entriesFault with
      | some e => .error e
      | none =>
        let sortedRows := (entriesFor db wid).insertionSort entryRowLe
        let iterated :=
          match f.iterFault with
          | some k => sortedRows.take k
          | none => sortedRows
        .ok (some
          { id := r.id, title := r.title, description := r.description,
            durationMinutes := r.durationMinutes,
            caloriesBurned := r.caloriesBurned, userID := 0,
            entries := iterated.map rowToEntry })

/-- Failure injection for `UpdateWorkout`. -/
structure UpdateFaults where
  beginFault : Option SqlError
  updFault : Option SqlError
  rowsFault : Option SqlError
  deleteFault : Option SqlError
  entryFault : Nat → Option SqlError
  commitFault : Option SqlError

/-- All statements succeed. -/
def noUpdateFaults : UpdateFaults :=
  { beginFault := none, updFault := none, rowsFault := none,
    deleteFault := none, entryFault := fun _ => none, commitFault := none }

/-- `PostgresWorkoutStore.UpdateWorkout`: in a transaction, UPDATE the
header scalar fields by id (the SET list does not touch `user_id`); if
zero rows were affected return `sql.ErrNoRows`; DELETE all entry rows of
the workout; re-insert the supplied entry list in order; commit.  Any
error returns the unchanged database (rollback). -/
def UpdateWorkout (f : UpdateFaults) (db : DB) (w : Workout) :
    DB × Option SqlError :=
  match f.beginFault with
  | some e => (db, some e)
  | none =>
    match f.updFault with
    | some e => (db, some e)
    | none =>
      let affected := (db.workouts.filter (fun r => r.id == w.id)).length
      let tx1 : DB :=
        { db with workouts := db.workouts.map (fun r =>
            if r.id == w.id then
              { r with
                title := w.title,
                description := w.description,
                durationMinutes := w.durationMinutes,
                caloriesBurned := w.caloriesBurned }
            else r) }
      match f.rowsFault with
      | some e => (db, some e)
      | none =>
        if affected == 0 then (db, some .noRows)
        else
          match f.deleteFault with
          | some e => (db, some e)
          | none =>
            let tx2 : DB :=
              { tx1 with entries :=
                  tx1.entries.filter (fun r => r.workoutId != w.id) }
            match insertEntries f.entryFault w.id w.entries 0 tx2 with
            | .error e => (db, some e)
            | .ok tx3 =>
              match f.commitFault with
              | some e => (db, some e)
              | none => (tx3, none)

/-- Modelled from the spec: `GetWorkoutOwner(id)` is not under `src/` (only
its callers in the handlers are); per the spec it returns the owning user
identity from the `workouts` row or a not-found error.  A row whose
`user_id` column was never written scans as the zero value. -/
def GetWorkoutOwner (db : DB) (wid : Int) : Except SqlError Int :=
  match findWorkoutRow db wid with
  | none => .error .noRows
  | some r => .ok (r.userId.getD 0)

/-- Modelled from the spec: `DeleteWorkout(id)` is not under `src/`; per
the spec it removes the workout row (its entries going with it by schema
design) and fails with not-found if the identity does not exist. -/
def DeleteWorkout (db : DB) (wid : Int) : DB × Option SqlError :=
  if (findWorkoutRow db wid).isSome then
    ({ db with
        workouts := db.workouts.filter (fun r => r.id != wid),
        entries := db.entries.filter (fun r => r.workoutId != wid) }, none)
  else
    (db, some .noRows)

/-- The resolved user attached to the request by the authentication
middleware: absent (`nil`), the `store.AnonymousUser` sentinel, or a user
with an id. -/
inductive CurrentUser where
  | missing
  | anonymous
  | user (uid : Int)
  deriving DecidableEq, Repr

/-- The body of one JSON (or plain-text) response write. -/
inductive HttpBody where
  | errMsg (s : String)
  | workoutJson (w : Workout)
  | idJson (wid : Int)
  | notFoundPage
  | plainText (s : String)
  deriving DecidableEq, Repr

/-- One write to the `http.ResponseWriter`: status code plus body.  A
handler normally performs exactly one write; the delete handler can
perform two (see `HandleDeleteWorkoutByID`). -/
structure HttpWrite where
  status : Nat
  body : HttpBody
  deriving DecidableEq, Repr

/-- The partial update body decoded by `HandleUpdateWorkoutByID`: every
field is a pointer (or a nilable slice for `entries`), so presence is
distinguished from the zero value. -/
structure UpdateWorkoutRequest where
  title : Option String
  description : Option String
  durationMinutes : Option Int
  caloriesBurned : Option Int
  entries : Option (List WorkoutEntry)
  deriving DecidableEq, Repr

/-- The field-by-field patch of `HandleUpdateWorkoutByID` (lines 108-122):
each request field that is non-nil overwrites the corresponding field of
the loaded workout; absent fields are left alone. -/
def applyWorkoutPatch (w : Workout) (req : UpdateWorkoutRequest) : Workout :=
  let w1 := match req.title with
    | some t => { w with title := t }
    | none => w
  let w2 := match req.description with
    | some d => { w1 with description := d }
    | none => w1
  let w3 := match req.durationMinutes with
    | some m => { w2 with durationMinutes := m }
    | none => w2
  let w4 := match req.caloriesBurned with
    | some c => { w3 with caloriesBurned := c }
    | none => w3
  match req.entries with
  | some es => { w4 with entries := es }
  | none => w4

/-- `HandleCreateWorkout`: decode the body (failure is modelled as a `none`
body), require a non-anonymous authenticated user, set `workout.UserID`
from the current user, delegate to the store, respond 201 with the stored
workout or 500 on store failure. -/
def HandleCreateWorkout (cu : CurrentUser) (body : Option Workout)
    (db : DB) : DB × List HttpWrite :=
  match body with
  | none => (db, [⟨400, .errMsg "invalid request sent"⟩])
  | some w =>
    match cu with
    | .missing => (db, [⟨400, .errMsg "you must be logged in"⟩])
    | .anonymous => (db, [⟨400, .errMsg "you must be logged in"⟩])
    | .user uid =>
      match CreateWorkout noCreateFaults db { w with userID := uid } with
      | (db2, .error _) => (db2, [⟨500, .errMsg "failed to create workout"⟩])
      | (db2, .ok created) => (db2, [⟨201, .workoutJson created⟩])

/-- `HandleUpdateWorkoutByID`: parse the id (`none` models a parse
failure), load the workout (404 when absent), decode the partial request
(`none` models a decode failure), patch the loaded workout, require a
non-anonymous user, resolve the owner and reject with 403 when it is not
the current user (this branch returns), then persist and respond 200 with
the merged workout. -/
def HandleUpdateWorkoutByID (cu : CurrentUser) (idParam : Option Int)
    (body : Option UpdateWorkoutRequest) (db : DB) : DB × List HttpWrite :=
  match idParam with
  | none => (db, [⟨400, .errMsg "invalid workout id"⟩])
  | some wid =>
    match GetWorkoutByID noQueryFaults db wid with
    | .error _ => (db, [⟨500, .errMsg "internal server error"⟩])
    | .ok none => (db, [⟨404, .notFoundPage⟩])
    | .ok (some existing) =>
      match body with
      | none => (db, [⟨400, .errMsg "invalid request payload"⟩])
      | some req =>
        let merged := applyWorkoutPatch existing req
        match cu with
        | .missing => (db, [⟨400, .errMsg "you must be logged in"⟩])
        | .anonymous => (db, [⟨400, .errMsg "you must be logged in"⟩])
        | .user uid =>
          match GetWorkoutOwner db wid with
          | .error .noRows => (db, [⟨404, .errMsg "workout does not exist"⟩])
          | .error _ => (db, [⟨500, .errMsg "internal server error"⟩])
          | .ok owner =>
            if owner != uid then
              (db, [⟨403, .errMsg "you are not authorized to update this workout"⟩])
            else
              match UpdateWorkout noUpdateFaults db merged with
              | (db2, some _) => (db2, [⟨500, .errMsg "internal server error"⟩])
              | (db2, none) => (db2, [⟨200, .workoutJson merged⟩])

/-- `HandleDeleteWorkoutByID`: parse the id, require a non-anonymous user,
resolve the owner (404 when absent).  The ownership check writes the 403
response but — unlike the update handler — does not return, so execution
falls through to `DeleteWorkout` in every case; the delete result then
appends a second write. -/
def HandleDeleteWorkoutByID (cu : CurrentUser) (idParam : Option Int)
    (db : DB) : DB × List HttpWrite :=
  match idParam with
  | none => (db, [⟨400, .errMsg "invalid workout id"⟩])
  | some wid =>
    match cu with
    | .missing => (db, [⟨400, .errMsg "you must be logged in"⟩])
    | .anonymous => (db, [⟨400, .errMsg "you must be logged in"⟩])
    | .user uid =>
      match GetWorkoutOwner db wid with
      | .error .noRows => (db, [⟨404, .errMsg "workout does not exist"⟩])
      | .error _ => (db, [⟨500, .errMsg "internal server error"⟩])
      | .ok owner =>
        let forbiddenWrites : List HttpWrite :=
          if owner != uid then
            [⟨403, .errMsg "you are not authorized to update this workout"⟩]
          else []
        match DeleteWorkout db wid with
        | (db2, some .noRows) =>
          (db2, forbiddenWrites ++ [⟨404, .plainText "workout not found"⟩])
        | (db2, some _) =>
          (db2, forbiddenWrites ++ [⟨500, .plainText "errro deleting workout"⟩])
        | (db2, none) =>
          (db2, forbiddenWrites ++ [⟨200, .idJson wid⟩])

/-- Adjacent-pair ascending check on `OrderIndex`, the sense in which a
retrieved entry list is sorted. -/
def ascByOrderIndex : List WorkoutEntry → Bool
  | [] => true
  | [_] => true
  | a :: b :: rest =>
    decide (a.orderIndex ≤ b.orderIndex) && ascByOrderIndex (b :: rest)

/-- An entry with its identity erased, for comparisons that ignore the
database-assigned id. -/
def contentOf (e : WorkoutEntry) : WorkoutEntry :=
  { e with id := 0 }

/-! ## General lemmas about the embedding -/

/-- With no injected faults the entry-insert loop succeeds and appends
exactly the rows of `assignIds`, in the given order. -/
theorem insertEntries_noFault (wid : Int) :
    ∀ (es : List WorkoutEntry) (i : Nat) (tx : DB),
      insertEntries (fun _ => none) wid es i tx =
        .ok { tx with
              entries := tx.entries ++ assignIds wid tx.nextEntryId es,
              nextEntryId := tx.nextEntryId + es.length }
  | [], _, tx => by simp [insertEntries, assignIds]
  | e :: rest, i, tx => by
    rw [insertEntries, insertEntries_noFault wid rest (i + 1)]
    simp [assignIds, List.append_assoc]
    omega

/-- Every row produced by `assignIds` has an id at least the starting
sequence value. -/
theorem mem_assignIds_id_ge (wid : Int) :
    ∀ {n : Int} {es : List WorkoutEntry} {r : EntryRow},
      r ∈ assignIds wid n es → n ≤ r.id
  | _, [], r, h => absurd h (List.not_mem_nil r)
  | n, e :: rest, r, h => by
    rcases List.mem_cons.mp h with h1 | h2
    · subst h1; simp [entryToRow]
    · have := mem_assignIds_id_ge wid h2
      omega

/-- Every row produced by `assignIds` carries the parent workout id. -/
theorem mem_assignIds_workoutId (wid : Int) :
    ∀ {n : Int} {es : List WorkoutEntry} {r : EntryRow},
      r ∈ assignIds wid n es → r.workoutId = wid
  | _, [], r, h => absurd h (List.not_mem_nil r)
  | n, e :: rest, r, h => by
    rcases List.mem_cons.mp h with h1 | h2
    · subst h1; simp [entryToRow]
    · exact mem_assignIds_workoutId wid h2

/-- Filtering the `assignIds` rows by the parent id keeps them all. -/
theorem filter_assignIds (wid : Int) (n : Int) (es : List WorkoutEntry) :
    (assignIds wid n es).filter (fun r => r.workoutId == wid) =
      assignIds wid n es := by
  rw [List.filter_eq_self]
  intro r hr
  simp [mem_assignIds_workoutId wid hr]

/-- Content (id-erased entry data) of the `assignIds` rows is exactly the
content of the given entries, in the given order. -/
theorem contentOf_assignIds (wid : Int) :
    ∀ (n : Int) (es : List WorkoutEntry),
      (assignIds wid n es).map (fun r => contentOf (rowToEntry r)) =
        es.map contentOf
  | _, [] => rfl
  | n, e :: rest => by
    rw [assignIds, List.map_cons, List.map_cons,
      contentOf_assignIds wid (n + 1) rest]
    simp [contentOf, rowToEntry, entryToRow]

/-- The rows deleted by `DELETE ... WHERE workout_id = $1` never reappear
when filtering for that workout id. -/
theorem filter_ne_then_eq (wid : Int) (l : List EntryRow) :
    (l.filter (fun r => r.workoutId != wid)).filter
        (fun r => r.workoutId == wid) = [] := by
  induction l with
  | nil => rfl
  | cons a l ih =>
    by_cases h : a.workoutId = wid <;> simp [List.filter_cons, h, ih]

/-- In a well-formed database no workout row carries the next sequence
value. -/
theorem findWorkoutRow_next_eq_none (db : DB) (hwf : DBWF db) :
    findWorkoutRow db db.nextWorkoutId = none := by
  rw [findWorkoutRow, List.find?_eq_none]
  intro r hr
  have := hwf.1 r hr
  simp only [beq_iff_eq]
  omega

/-- In a well-formed database no entry row points at the next workout
sequence value. -/
theorem entriesFor_next_eq_nil (db : DB) (hwf : DBWF db) :
    entriesFor db db.nextWorkoutId = [] := by
  rw [entriesFor, List.filter_eq_nil_iff]
  intro r hr
  have := hwf.2.2 r hr
  simp only [beq_iff_eq]
  omega

/-- Ascending order of mapped-back rows follows from sortedness of the
rows. -/
theorem ascByOrderIndex_of_sorted :
    ∀ {l : List EntryRow}, List.Sorted entryRowLe l →
      ascByOrderIndex (l.map rowToEntry) = true
  | [], _ => rfl
  | [_], _ => rfl
  | a :: b :: l, h => by
    have hab : entryRowLe a b :=
      (List.pairwise_cons.mp h).1 b (List.mem_cons_self b l)
    have ht := ascByOrderIndex_of_sorted (List.pairwise_cons.mp h).2
    simp only [List.map_cons] at ht ⊢
    simp only [ascByOrderIndex, Bool.and_eq_true, decide_eq_true_eq]
    exact ⟨hab, ht⟩

/-- If the supplied entries are ascending by order index, so are the rows
`assignIds` produces (adjacent bound). -/
theorem chain'_assignIds (wid : Int) :
    ∀ (n : Int) (es : List WorkoutEntry), ascByOrderIndex es = true →
      List.Chain' entryRowLe (assignIds wid n es)
  | _, [], _ => List.chain'_nil
  | _, [_], _ => by simp [assignIds]
  | n, a :: b :: rest, h => by
    have hh : a.orderIndex ≤ b.orderIndex ∧
        ascByOrderIndex (b :: rest) = true := by
      simpa [ascByOrderIndex, Bool.and_eq_true, decide_eq_true_eq] using h
    have htail := chain'_assignIds wid (n + 1) (b :: rest) hh.2
    rw [assignIds]
    rw [List.chain'_cons']
    constructor
    · intro y hy
      rw [assignIds] at hy
      simp only [List.head?_cons, Option.mem_def, Option.some.injEq] at hy
      subst hy
      exact hh.1
    · exact htail

/-- If the supplied entries are ascending by order index, the rows
`assignIds` produces are sorted. -/
theorem sorted_assignIds (wid n : Int) (es : List WorkoutEntry)
    (h : ascByOrderIndex es = true) :
    List.Sorted entryRowLe (assignIds wid n es) :=
  List.chain'_iff_pairwise.mp (chain'_assignIds wid n es h)

/-! ## Fixtures for witnesses and counterexamples -/

/-- Fixture: one squat entry with the zero pre-insert id. -/
def sampleEntry : WorkoutEntry :=
  { id := 0, exerciseName := "Squat", sets := 3, reps := some 10,
    durationSeconds := none, weight := none, notes := "", orderIndex := 0 }

/-- Fixture: a one-entry workout as submitted to the create endpoint. -/
def sampleWorkout : Workout :=
  { id := 0, title := "Leg Day", description := "", durationMinutes := 45,
    caloriesBurned := 300, userID := 0, entries := [sampleEntry] }

/-- Fixture: an empty database whose entry sequence is at 5. -/
def freshDB : DB :=
  { workouts := [], entries := [], nextWorkoutId := 1, nextEntryId := 5 }

/-- Fixture: a stored workout row owned by user 1. -/
def ownedRow : WorkoutRow :=
  { id := 1, title := "Leg Day", description := "", durationMinutes := 45,
    caloriesBurned := 300, userId := some 1 }

/-- Fixture: a database holding workout 1 (owned by user 1) with one
stored entry. -/
def ownedDB : DB :=
  { workouts := [ownedRow],
    entries := [{ id := 1, workoutId := 1, exerciseName := "Squat",
                  sets := 3, reps := some 10, durationSeconds := none,
                  weight := none, notes := "", orderIndex := 0 }],
    nextWorkoutId := 2, nextEntryId := 2 }

/-- Fixture: a bench entry listed first but with the larger order index. -/
def benchEntry : WorkoutEntry :=
  { id := 42, exerciseName := "Bench", sets := 3, reps := some 8,
    durationSeconds := none, weight := none, notes := "", orderIndex := 1 }

/-- Fixture: a rowing entry listed second but with the smaller order
index. -/
def rowingEntry : WorkoutEntry :=
  { id := 43, exerciseName := "Row", sets := 3, reps := some 12,
    durationSeconds := none, weight := none, notes := "", orderIndex := 0 }

/-- Fixture: the replacement workout sent to the update endpoint, its
entry list not ascending by order index. -/
def replacementWorkout : Workout :=
  { id := 1, title := "Leg Day", description := "", durationMinutes := 45,
    caloriesBurned := 300, userID := 0, entries := [benchEntry, rowingEntry] }

/-- Fixture: `ownedDB` with a second stored entry row for workout 1. -/
def ownedDB2 : DB :=
  { workouts := [ownedRow],
    entries := [{ id := 1, workoutId := 1, exerciseName := "Squat",
                  sets := 3, reps := some 10, durationSeconds := none,
                  weight := none, notes := "", orderIndex := 0 },
                { id := 2, workoutId := 1, exerciseName := "Bench",
                  sets := 3, reps := some 8, durationSeconds := none,
                  weight := none, notes := "", orderIndex := 1 }],
    nextWorkoutId := 2, nextEntryId := 3 }

/-- Fixture: query faults injecting a driver error after the first
iterated entry row (header scan and entries query succeed). -/
def truncFaults : QueryFaults :=
  { headerFault := none, entriesFault := none, iterFault := some 1 }

/-- Fixture: the workout as retrieved fault-free from `ownedDB` (user id
is not scanned, so it reads back as zero). -/
def ownedWorkoutView : Workout :=
  { id := 1, title := "Leg Day", description := "", durationMinutes := 45,
    caloriesBurned := 300, userID := 0,
    entries := [{ id := 1, exerciseName := "Squat", sets := 3,
                  reps := some 10, durationSeconds := none, weight := none,
                  notes := "", orderIndex := 0 }] }

/-! ## Claim theorems -/

/-- Claim C6: the update handler overwrites exactly the fields present in
the decoded partial request on the loaded workout — title, description,
duration, calories and entries each follow their request field when it is
present and keep the loaded value when it is absent — while identity and
owner are never touched by the patch. -/
theorem c6_patch_only_present_fields (w : Workout)
    (req : UpdateWorkoutRequest) :
    (applyWorkoutPatch w req).title = req.title.getD w.title ∧
    (applyWorkoutPatch w req).description =
      req.description.getD w.description ∧
    (applyWorkoutPatch w req).durationMinutes =
      req.durationMinutes.getD w.durationMinutes ∧
    (applyWorkoutPatch w req).caloriesBurned =
      req.caloriesBurned.getD w.caloriesBurned ∧
    (applyWorkoutPatch w req).entries = req.entries.getD w.entries ∧
    (applyWorkoutPatch w req).id = w.id ∧
    (applyWorkoutPatch w req).userID = w.userID := by
  rcases req with ⟨t, d, m, c, es⟩
  cases t <;> cases d <;> cases m <;> cases c <;> cases es <;>
    simp [applyWorkoutPatch]

/-- Claim C8: updating a workout whose id matches no stored row returns
the not-found error `sql.ErrNoRows` and leaves the database — in
particular the entries table — completely unchanged. -/
theorem c8_update_missing_workout_not_found (db : DB) (w : Workout)
    (h : findWorkoutRow db w.id = none) :
    UpdateWorkout noUpdateFaults db w = (db, some .noRows) := by
  rw [findWorkoutRow] at h
  have hfilter : db.workouts.filter (fun r => r.id == w.id) = [] := by
    rw [List.filter_eq_nil_iff]
    exact List.find?_eq_none.mp h
  simp [UpdateWorkout, noUpdateFaults, hfilter]

/-- Witness for C8 at a concrete empty database. -/
theorem c8_update_missing_workout_not_found_witness :
    findWorkoutRow freshDB sampleWorkout.id = none ∧
    UpdateWorkout noUpdateFaults freshDB sampleWorkout =
      (freshDB, some .noRows) :=
  ⟨rfl, c8_update_missing_workout_not_found freshDB sampleWorkout rfl⟩

/-- Claim C10: when every insert succeeds but the commit fails,
`CreateWorkout` returns `sql.ErrConnDone` whatever the actual commit error
was, so the real cause is never observable; the database is unchanged. -/
theorem c10_commit_error_replaced_by_connDone (db : DB) (w : Workout)
    (e : SqlError) :
    CreateWorkout
        { beginFault := none, headerFault := none,
          entryFault := fun _ => none, commitFault := some e } db w =
      (db, .error .connDone) := by
  simp [CreateWorkout, insertEntries_noFault]

/-- Claim C1 (failing part): deleting another user's workout writes the
403 forbidden response but then still deletes the workout and writes a
second, 200 response: user 2 deletes workout 1 owned by user 1, and the
workout row is gone afterwards. -/
theorem c1_delete_despite_forbidden :
    (HandleDeleteWorkoutByID (.user 2) (some 1) ownedDB).2 =
      [⟨403, .errMsg "you are not authorized to update this workout"⟩,
       ⟨200, .idJson 1⟩] ∧
    findWorkoutRow (HandleDeleteWorkoutByID (.user 2) (some 1) ownedDB).1 1 =
      none ∧
    entriesFor (HandleDeleteWorkoutByID (.user 2) (some 1) ownedDB).1 1 =
      [] :=
  ⟨rfl, rfl, rfl⟩

/-- Claim C2 (failing part): on a successful create the stored entry row
receives the database-assigned id 5, yet the returned workout is the input
workout with only its header id set — its entry still carries the
pre-insert id 0, because the generated id was scanned into a loop-local
copy. -/
theorem c2_returned_entry_keeps_stale_id :
    (CreateWorkout noCreateFaults freshDB sampleWorkout).2 =
      .ok { sampleWorkout with id := 1 } ∧
    (CreateWorkout noCreateFaults freshDB sampleWorkout).1.entries.map
        EntryRow.id = [5] ∧
    sampleWorkout.entries.map WorkoutEntry.id = [0] :=
  ⟨rfl, rfl, rfl⟩

/-- Claim C3 (failing part): the create handler resolves user 7 and puts 7
into the in-memory workout it returns with the 201 response, but the
stored row's user_id column is never written, so the subsequent owner
lookup does not return 7. -/
theorem c3_owner_not_persisted :
    (HandleCreateWorkout (.user 7) (some sampleWorkout) freshDB).2 =
      [⟨201, .workoutJson { sampleWorkout with id := 1, userID := 7 }⟩] ∧
    ((HandleCreateWorkout (.user 7) (some sampleWorkout) freshDB).1.workouts.map
        WorkoutRow.userId) = [none] ∧
    GetWorkoutOwner
        (HandleCreateWorkout (.user 7) (some sampleWorkout) freshDB).1 1 =
      .ok 0 :=
  ⟨rfl, rfl, rfl⟩

/-- Counterexample to claim C5 as stated: a successful `UpdateWorkout`
with entry list E (listed with descending order indexes and caller-chosen
ids) is followed by a `GetWorkoutByID` that does not retrieve E itself:
the rows come back re-sorted by order index and carry freshly assigned
database ids. -/
theorem c5_counterexample :
    (UpdateWorkout noUpdateFaults ownedDB replacementWorkout).2 = none ∧
    (match GetWorkoutByID noQueryFaults
        (UpdateWorkout noUpdateFaults ownedDB replacementWorkout).1 1 with
     | .ok (some wk) => wk.entries
     | _ => []) ≠ replacementWorkout.entries :=
  ⟨rfl, by decide⟩

/-- Any failure inside `CreateWorkout` returns the original database: the
function reaches a commit only after every statement succeeded, and every
early return carries the pre-transaction state (deferred rollback). -/
theorem createWorkout_error_fst (f : CreateFaults) (db : DB) (w : Workout)
    (e : SqlError) (h : (CreateWorkout f db w).2 = .error e) :
    (CreateWorkout f db w).1 = db := by
  unfold CreateWorkout at h ⊢
  simp only [] at h ⊢
  split at h
  · rfl
  · split at h
    · rfl
    · split at h
      · rfl
      · split at h <;> simp_all

/-- Claim C4: if any insert of `CreateWorkout` (header insert or any entry
insert) fails, or the transaction cannot begin or commit, the operation
returns the unchanged database, and in a well-formed database the workout
id that would have been assigned has zero rows in either table. -/
theorem c4_create_failure_atomic (f : CreateFaults) (db : DB) (w : Workout)
    (e : SqlError) (hwf : DBWF db)
    (h : (CreateWorkout f db w).2 = .error e) :
    (CreateWorkout f db w).1 = db ∧
    findWorkoutRow (CreateWorkout f db w).1 db.nextWorkoutId = none ∧
    entriesFor (CreateWorkout f db w).1 db.nextWorkoutId = [] := by
  have h1 := createWorkout_error_fst f db w e h
  refine ⟨h1, ?_, ?_⟩
  · rw [h1]; exact findWorkoutRow_next_eq_none db hwf
  · rw [h1]; exact entriesFor_next_eq_nil db hwf

/-- Fixture: fault injection that fails the first entry insert, as a
constraint violation would. -/
def entryFaultSpec : CreateFaults :=
  { beginFault := none, headerFault := none,
    entryFault := fun i => if i == 0 then some (.other 7) else none,
    commitFault := none }

/-- Witness for C4: a create whose first entry insert fails leaves the
concrete database untouched. -/
theorem c4_create_failure_atomic_witness :
    DBWF freshDB ∧
    (CreateWorkout entryFaultSpec freshDB sampleWorkout).2 =
      .error (.other 7) ∧
    ((CreateWorkout entryFaultSpec freshDB sampleWorkout).1 = freshDB ∧
      findWorkoutRow (CreateWorkout entryFaultSpec freshDB sampleWorkout).1
        freshDB.nextWorkoutId = none ∧
      entriesFor (CreateWorkout entryFaultSpec freshDB sampleWorkout).1
        freshDB.nextWorkoutId = []) :=
  ⟨by unfold DBWF; decide, rfl,
    c4_create_failure_atomic entryFaultSpec freshDB sampleWorkout
      (.other 7) (by unfold DBWF; decide) rfl⟩

/-- Counterexample to claim C7 as stated: a database error during the
entry-row iteration (after one of the two stored rows) is a database
error other than no-rows, yet `GetWorkoutByID` does not return a non-nil
error — the loop just ends early, `rows.Err()` is never checked, and the
call succeeds with the entry list truncated to the single row delivered
before the error (which coincides with `ownedWorkoutView`). -/
theorem c7_counterexample :
    GetWorkoutByID truncFaults ownedDB2 1 = .ok (some ownedWorkoutView) ∧
    (entriesFor ownedDB2 1).length = 2 :=
  ⟨rfl, rfl⟩

/-- Claim C7 (amended): `GetWorkoutByID` returns `(nil, nil)` — here
`.ok none` — when no workout row matches the id; a header scan error
other than no-rows and any entries query error are propagated as non-nil
errors; every returned error differs from `sql.ErrNoRows` (the entries
query, unlike the header scan, cannot produce a no-rows error with the
`database/sql` driver, which is the `hq` hypothesis); but a database
error during the entry-row iteration is swallowed — `rows.Err()` is
never checked — and the call returns a nil error with the entry list
truncated to the rows delivered before the error. -/
theorem c7_get_error_contract (f : QueryFaults) (db : DB) (wid : Int)
    (hq : f.entriesFault ≠ some .noRows) :
    ((f.headerFault = none ∧ findWorkoutRow db wid = none) →
        GetWorkoutByID f db wid = .ok none) ∧
    (∀ e, f.headerFault = some e → e ≠ .noRows →
        GetWorkoutByID f db wid = .error e) ∧
    (∀ e, f.headerFault = none → findWorkoutRow db wid ≠ none →
        f.entriesFault = some e → GetWorkoutByID f db wid = .error e) ∧
    (∀ e, GetWorkoutByID f db wid = .error e → e ≠ .noRows) ∧
    (∀ k, f.headerFault = none → findWorkoutRow db wid ≠ none →
        f.entriesFault = none → f.iterFault = some k →
        ∃ wk, GetWorkoutByID f db wid = .ok (some wk) ∧
          wk.entries = (((entriesFor db wid).insertionSort
            entryRowLe).take k).map rowToEntry) := by
  rcases hf : f.headerFault with _ | e0
  · rcases hr : findWorkoutRow db wid with _ | row <;>
      rcases he : f.entriesFault with _ | e1 <;>
        rcases hi : f.iterFault with _ | k <;>
          simp_all [GetWorkoutByID]
  · cases e0 <;> simp_all [GetWorkoutByID]

/-- Witness for C7 at concrete inputs: a fault-free lookup of the absent
workout 99 yields `.ok none`, and an iteration error after one row on
`ownedDB2` yields a success with the truncated entry list. -/
theorem c7_get_error_contract_witness :
    truncFaults.entriesFault ≠ some .noRows ∧
    GetWorkoutByID noQueryFaults ownedDB2 99 = .ok none ∧
    (∃ wk, GetWorkoutByID truncFaults ownedDB2 1 = .ok (some wk) ∧
      wk.entries = (((entriesFor ownedDB2 1).insertionSort
        entryRowLe).take 1).map rowToEntry) :=
  ⟨by decide,
    (c7_get_error_contract noQueryFaults ownedDB2 99 (by decide)).1
      ⟨rfl, rfl⟩,
    (c7_get_error_contract truncFaults ownedDB2 1 (by decide)).2.2.2.2 1
      rfl (by decide) rfl rfl⟩

/-- Claim C9: the entry list returned by `GetWorkoutByID` is ascending by
order index (`ORDER BY order_index`), and both writers preserve the
persistence order: a fault-free `CreateWorkout` appends exactly its entry
rows in the given order, and a fault-free successful `UpdateWorkout`
replaces the workout's rows with exactly the supplied list in the given
order. -/
theorem c9_order_invariant :
    (∀ (f : QueryFaults) (db : DB) (wid : Int) (wk : Workout),
        GetWorkoutByID f db wid = .ok (some wk) →
        ascByOrderIndex wk.entries = true) ∧
    (∀ (db : DB) (w : Workout) (db2 : DB) (w2 : Workout),
        CreateWorkout noCreateFaults db w = (db2, .ok w2) →
        db2.entries = db.entries ++
          assignIds db.nextWorkoutId db.nextEntryId w.entries) ∧
    (∀ (db : DB) (w : Workout) (db2 : DB),
        UpdateWorkout noUpdateFaults db w = (db2, none) →
        db2.entries = db.entries.filter (fun r => r.workoutId != w.id) ++
          assignIds w.id db.nextEntryId w.entries) := by
  refine ⟨?_, ?_, ?_⟩
  · intro f db wid wk h
    rcases hf : f.headerFault with _ | e0
    · rcases hr : findWorkoutRow db wid with _ | row
      · simp_all [GetWorkoutByID]
      · rcases he : f.entriesFault with _ | e1
        · rcases hi : f.iterFault with _ | k
          · simp only [GetWorkoutByID, hf, hr, he, hi] at h
            simp only [Except.ok.injEq, Option.some.injEq] at h
            subst h
            exact ascByOrderIndex_of_sorted
              (List.sorted_insertionSort entryRowLe _)
          · simp only [GetWorkoutByID, hf, hr, he, hi] at h
            simp only [Except.ok.injEq, Option.some.injEq] at h
            subst h
            exact ascByOrderIndex_of_sorted
              (List.Pairwise.take (List.sorted_insertionSort entryRowLe _))
        · simp_all [GetWorkoutByID]
    · cases e0 <;> simp_all [GetWorkoutByID]
  · intro db w db2 w2 h
    simp only [CreateWorkout, noCreateFaults] at h
    rw [insertEntries_noFault] at h
    simp only [Prod.mk.injEq, Except.ok.injEq] at h
    obtain ⟨h1, _⟩ := h
    subst h1
    rfl
  · intro db w db2 h
    simp only [UpdateWorkout, noUpdateFaults] at h
    rw [insertEntries_noFault] at h
    split at h
    · simp at h
    · simp only [Prod.mk.injEq] at h
      obtain ⟨h1, _⟩ := h
      subst h1
      rfl

/-- Witness for C9 at concrete retrieval, create and update runs. -/
theorem c9_order_invariant_witness :
    (GetWorkoutByID noQueryFaults ownedDB 1 = .ok (some ownedWorkoutView) ∧
      ascByOrderIndex ownedWorkoutView.entries = true) ∧
    ((CreateWorkout noCreateFaults freshDB sampleWorkout).1.entries =
      freshDB.entries ++ assignIds freshDB.nextWorkoutId
        freshDB.nextEntryId sampleWorkout.entries) ∧
    ((UpdateWorkout noUpdateFaults ownedDB replacementWorkout).1.entries =
      ownedDB.entries.filter
          (fun r => r.workoutId != replacementWorkout.id) ++
        assignIds replacementWorkout.id ownedDB.nextEntryId
          replacementWorkout.entries) :=
  ⟨⟨rfl, c9_order_invariant.1 noQueryFaults ownedDB 1 ownedWorkoutView rfl⟩,
    c9_order_invariant.2.1 freshDB sampleWorkout _ _ rfl,
    c9_order_invariant.2.2 ownedDB replacementWorkout _ rfl⟩

/-- Claim C5 (amended): for every existing workout, a fault-free
`UpdateWorkout` with caller-supplied entry list E succeeds, deletes all
previously stored entries (in a well-formed database none of the old rows
survive) and inserts exactly E in the given order with freshly assigned
database ids; a subsequent `GetWorkoutByID` then retrieves exactly those
rows sorted ascending by order index — and when E itself is ascending by
order index, the retrieved list equals E except for the freshly assigned
id fields. -/
theorem c5_update_full_replace (db : DB) (w : Workout)
    (hwf : DBWF db) (hex : findWorkoutRow db w.id ≠ none) :
    ∃ db2, UpdateWorkout noUpdateFaults db w = (db2, none) ∧
      entriesFor db2 w.id = assignIds w.id db.nextEntryId w.entries ∧
      (∀ r ∈ entriesFor db w.id, r ∉ entriesFor db2 w.id) ∧
      ∃ wk, GetWorkoutByID noQueryFaults db2 w.id = .ok (some wk) ∧
        wk.entries = ((assignIds w.id db.nextEntryId w.entries).insertionSort
            entryRowLe).map rowToEntry ∧
        (ascByOrderIndex w.entries = true →
          wk.entries.map contentOf = w.entries.map contentOf) := by
  rw [findWorkoutRow] at hex
  obtain ⟨row, hrow⟩ := Option.ne_none_iff_exists'.mp hex
  have hmemrow := List.mem_of_find?_eq_some hrow
  have hpred := List.find?_some hrow
  have hmem : row ∈ db.workouts.filter (fun r => r.id == w.id) :=
    List.mem_filter.mpr ⟨hmemrow, hpred⟩
  have hpos : 0 < (db.workouts.filter (fun r => r.id == w.id)).length :=
    List.length_pos.mpr (List.ne_nil_of_mem hmem)
  have hlen : ((db.workouts.filter (fun r => r.id == w.id)).length == 0)
      = false := by
    simp only [beq_eq_false_iff_ne]
    omega
  set litDB : DB :=
    { workouts := db.workouts.map (fun r =>
        if r.id == w.id then
          { r with
            title := w.title,
            description := w.description,
            durationMinutes := w.durationMinutes,
            caloriesBurned := w.caloriesBurned }
        else r),
      entries := db.entries.filter (fun r => r.workoutId != w.id) ++
        assignIds w.id db.nextEntryId w.entries,
      nextWorkoutId := db.nextWorkoutId,
      nextEntryId := db.nextEntryId + w.entries.length } with hlit
  have hupd : UpdateWorkout noUpdateFaults db w = (litDB, none) := by
    rw [hlit]
    simp only [UpdateWorkout, noUpdateFaults]
    rw [insertEntries_noFault]
    simp [hlen]
  have hEnt : entriesFor litDB w.id =
      assignIds w.id db.nextEntryId w.entries := by
    rw [hlit]
    simp only [entriesFor]
    rw [List.filter_append, filter_ne_then_eq, filter_assignIds]
    simp
  have hfindSome : (findWorkoutRow litDB w.id).isSome := by
    rw [hlit, findWorkoutRow]
    rw [List.find?_isSome]
    refine ⟨_, List.mem_map_of_mem _ hmemrow, ?_⟩
    simp [hpred]
  obtain ⟨row2, hrow2⟩ := Option.isSome_iff_exists.mp hfindSome
  refine ⟨litDB, hupd, hEnt, ?_, ?_⟩
  · intro r hrold hrnew
    rw [hEnt] at hrnew
    have h1 := mem_assignIds_id_ge w.id hrnew
    have h2 := hwf.2.1 r (List.mem_of_mem_filter hrold)
    omega
  · refine ⟨{ id := row2.id, title := row2.title,
              description := row2.description,
              durationMinutes := row2.durationMinutes,
              caloriesBurned := row2.caloriesBurned, userID := 0,
              entries := ((entriesFor litDB w.id).insertionSort
                entryRowLe).map rowToEntry },
            ?_, ?_, ?_⟩
    · simp only [GetWorkoutByID, noQueryFaults, hrow2]
    · dsimp only
      rw [hEnt]
    · intro hasc
      dsimp only
      rw [hEnt, List.Sorted.insertionSort_eq
        (sorted_assignIds w.id db.nextEntryId w.entries hasc)]
      rw [List.map_map]
      have := contentOf_assignIds w.id db.nextEntryId w.entries
      simpa [Function.comp] using this

/-- Witness for C5 at the concrete database `ownedDB` and replacement
list `replacementWorkout.entries`. -/
theorem c5_update_full_replace_witness :
    DBWF ownedDB ∧
    findWorkoutRow ownedDB replacementWorkout.id ≠ none ∧
    (∃ db2, UpdateWorkout noUpdateFaults ownedDB replacementWorkout =
        (db2, none) ∧
      entriesFor db2 replacementWorkout.id =
        assignIds replacementWorkout.id ownedDB.nextEntryId
          replacementWorkout.entries ∧
      (∀ r ∈ entriesFor ownedDB replacementWorkout.id,
        r ∉ entriesFor db2 replacementWorkout.id) ∧
      ∃ wk, GetWorkoutByID noQueryFaults db2 replacementWorkout.id =
          .ok (some wk) ∧
        wk.entries = ((assignIds replacementWorkout.id ownedDB.nextEntryId
            replacementWorkout.entries).insertionSort entryRowLe).map
              rowToEntry ∧
        (ascByOrderIndex replacementWorkout.entries = true →
          wk.entries.map contentOf =
            replacementWorkout.entries.map contentOf)) :=
  ⟨by unfold DBWF; decide, by decide,
    c5_update_full_replace ownedDB replacementWorkout
      (by unfold DBWF; decide) (by decide)⟩
